import Mathlib

/-!
Shallow embedding of the CSP solver in `Oving4/Assignment4.py`.

Python values in this solver are strings (colors, digit characters).
A Python "domain" is normally a list of strings, but the buggy statement
`tmp[var] = val` in `backtrack` stores a raw string where a list is
expected, so domains are modelled by `PyDom`, which is either a list of
strings or a raw string.  Iterating a raw string yields its characters
as one-character strings, and calling `.remove` on a string raises
`AttributeError`; both behaviours are modelled faithfully.

Python exceptions are modelled with `Except PyErr`.  The unbounded
`while` loop of AC-3 and the unbounded recursion of `backtrack` are
modelled with an explicit fuel argument; running out of fuel yields the
distinguished artificial error `PyErr.outOfFuel`, which no theorem below
ever concludes, so fuel exhaustion can never be mistaken for a result of
the program.
-/

/-- Python exceptions (plus the fuel artifact of the embedding). -/
inductive PyErr where
  | keyError : PyErr
  | attributeError : PyErr
  | valueError : PyErr
  | outOfFuel : PyErr
deriving DecidableEq, Repr

deriving instance DecidableEq for Except

/-- A Python value sitting in an assignment slot: either a list of strings
(the intended representation of a domain) or a raw string (what
`tmp[var] = val` actually stores). -/
inductive PyDom where
  | list : List String → PyDom
  | str : String → PyDom
deriving DecidableEq, Repr

/-- Python `len` on an assignment slot. -/
def PyDom.len : PyDom → Nat
  | .list l => l.length
  | .str s => s.length

/-- Python iteration over an assignment slot: iterating a list yields its
elements, iterating a string yields its characters as one-character
strings. -/
def PyDom.iter : PyDom → List String
  | .list l => l
  | .str s => s.toList.map String.singleton

/-- An assignment: a Python dict from variable names to domain slots,
modelled as an insertion-ordered association list (Python dicts preserve
insertion order). -/
abbrev Asg := List (String × PyDom)

/-- Python dict lookup `d[k]` (returning `none` where Python raises
`KeyError`). -/
def dlookup : List (String × α) → String → Option α
  | [], _ => none
  | (k', v') :: rest, k => if k' = k then some v' else dlookup rest k

/-- Python dict assignment `d[k] = v`: updates the first entry with key
`k` in place, otherwise appends at the end (insertion order). -/
def dictSet : List (String × α) → String → α → List (String × α)
  | [], k, v => [(k, v)]
  | (k', v') :: rest, k, v =>
    if k' = k then (k', v) :: rest else (k', v') :: dictSet rest k v

/-- Python `list.remove(x)`: removes the first occurrence of `x`. -/
def pyRemove : List String → String → List String
  | [], _ => []
  | x :: rest, y => if x = y then rest else x :: pyRemove rest y

/-- Total number of values over all slots of an assignment (used to
measure domain shrinking). -/
def totalLen (asg : Asg) : Nat := (asg.map (fun p => p.2.len)).sum

/-- `CSP.get_all_possible_pairs`: the cross product of two value lists,
in `itertools.product` order. -/
def get_all_possible_pairs (a b : List String) : List (String × String) :=
  a.flatMap (fun x => b.map (fun y => (x, y)))

/-- The CSP object: the variable list (`vars`; Lean reserves the source name), `domains`, `constraints` (a dict of
dicts holding the materialized lists of legal value pairs, as produced by
the repository's builders, which convert the lazy filter objects to lists
before search), and the two diagnostic counters. -/
structure CSP where
  vars : List String
  domains : List (String × List String)
  constraints : List (String × List (String × List (String × String)))
  backtracks : Nat
  failed : Nat
deriving DecidableEq, Repr

/-- `CSP.__init__`. -/
def emptyCSP : CSP := ⟨[], [], [], 0, 0⟩

/-- `CSP.add_variable`. -/
def add_variable (csp : CSP) (name : String) (domain : List String) : CSP :=
  { csp with
    vars := csp.vars ++ [name]
    domains := dictSet csp.domains name domain
    constraints := dictSet csp.constraints name [] }

/-- Lookup of `self.constraints[i][j]`. -/
def dlookupC (csp : CSP) (i j : String) : Option (List (String × String)) :=
  match dlookup csp.constraints i with
  | none => none
  | some inner => dlookup inner j

/-- `CSP.add_constraint_one_way`: reads `self.constraints[i]` (KeyError if
`i` is undeclared), on a fresh pair computes the cross product of
`self.domains[i]` and `self.domains[j]` (KeyError if either is missing),
then filters through the predicate.  The repository's builders
materialize the lazy filter objects into lists before search; the
filtered list is stored here directly, which is that materialized
state. -/
def add_constraint_one_way (csp : CSP) (i j : String)
    (filter_function : String → String → Bool) : Except PyErr CSP :=
  match dlookup csp.constraints i with
  | none => .error .keyError
  | some inner =>
    match dlookup inner j with
    | some pairs =>
      let inner1 := dictSet inner j (pairs.filter (fun p => filter_function p.1 p.2))
      .ok { csp with constraints := dictSet csp.constraints i inner1 }
    | none =>
      match dlookup csp.domains i, dlookup csp.domains j with
      | some di, some dj =>
        let pairs := get_all_possible_pairs di dj
        let inner1 := dictSet inner j (pairs.filter (fun p => filter_function p.1 p.2))
        .ok { csp with constraints := dictSet csp.constraints i inner1 }
      | _, _ => .error .keyError

/-- `CSP.add_all_different_constraint`. -/
def add_all_different_constraint (csp : CSP) (vars : List String) :
    Except PyErr CSP :=
  (get_all_possible_pairs vars vars).foldlM
    (fun c p =>
      if p.1 ≠ p.2 then add_constraint_one_way c p.1 p.2 (fun x y => x != y)
      else .ok c) csp

/-- `CSP.get_all_arcs`: every registered directed pair, in dict iteration
order. -/
def get_all_arcs (csp : CSP) : List (String × String) :=
  csp.constraints.flatMap (fun p => p.2.map (fun q => (p.1, q.1)))

/-- `CSP.get_all_neighboring_arcs(var)`: `[(i, var) for i in
self.constraints[var]]` (KeyError on an unknown variable). -/
def get_all_neighboring_arcs (csp : CSP) (v : String) :
    Except PyErr (List (String × String)) :=
  match dlookup csp.constraints v with
  | none => .error .keyError
  | some inner => .ok (inner.map (fun q => (q.1, v)))

/-- The body of the `for x in assignment[i]` loop of `CSP.revise` when
`assignment[i]` is a list.  Python's list iterator is index-based: at
each step it reads the element at the current index of the (possibly
already shrunk) list, then increments the index, so removing the current
element skips the element after it.  `sameIJ` records whether `i == j`
(then `assignment[j]` is the very list being mutated).  The fuel equals
the initial list length at the call site, which is exactly the maximal
number of iterations, so the fuel-exhaustion branch coincides with the
normal loop exit. -/
def reviseListLoop (cIJ : List (String × String)) (sameIJ : Bool)
    (dj0 : List String) :
    Nat → List String → Nat → Bool → Bool × List String
  | 0, cur, _, revised => (revised, cur)
  | fuel + 1, cur, idx, revised =>
    if h : idx < cur.length then
      let x := cur.get ⟨idx, h⟩
      let djIter := if sameIJ then cur else dj0
      let arcs := get_all_possible_pairs [x] djIter
      if (cIJ.filter (fun p => decide (p ∈ arcs))).length < 1 then
        if decide (x ∈ cur) then
          reviseListLoop cIJ sameIJ dj0 fuel (pyRemove cur x) (idx + 1) true
        else
          reviseListLoop cIJ sameIJ dj0 fuel cur (idx + 1) true
      else
        reviseListLoop cIJ sameIJ dj0 fuel cur (idx + 1) revised
    else (revised, cur)

/-- The body of the `for x in assignment[i]` loop of `CSP.revise` when
`assignment[i]` is a raw string (the state produced by `tmp[var] = val`
in `backtrack`): iteration yields one-character strings; on the first
value without support the code reaches `assignment[i].remove(x)`, and
strings have no `remove` attribute, so `AttributeError` is raised
(`x in assignment[i]` is Python substring containment, which always
holds for a character drawn from the string itself). -/
def reviseStrLoop (cIJ : List (String × String)) (djIter : List String)
    (sFull : List Char) : List Char → Bool → Except PyErr Bool
  | [], revised => .ok revised
  | c :: rest, revised =>
    let x := String.singleton c
    let arcs := get_all_possible_pairs [x] djIter
    if (cIJ.filter (fun p => decide (p ∈ arcs))).length < 1 then
      if decide (c ∈ sFull) then .error .attributeError
      else reviseStrLoop cIJ djIter sFull rest true
    else reviseStrLoop cIJ djIter sFull rest revised

/-- `CSP.revise`.  Looks up `assignment[i]` (KeyError if missing); with
an empty slot the loop body never runs, so `assignment[j]` and
`self.constraints[i][j]` (which Python reads inside the loop) are not
touched; otherwise they are looked up (KeyError if missing) and the
loop runs.  Returns the revised flag together with the updated
assignment; the CSP object is threaded through to model `self`. -/
def revise (csp : CSP) (asg : Asg) (i j : String) :
    Except PyErr (CSP × Bool × Asg) :=
  match dlookup asg i with
  | none => .error .keyError
  | some (PyDom.list di) =>
    if di.length = 0 then .ok (csp, false, asg)
    else
      match dlookup asg j with
      | none => .error .keyError
      | some dj =>
        match dlookupC csp i j with
        | none => .error .keyError
        | some cIJ =>
          match reviseListLoop cIJ (decide (i = j)) dj.iter di.length di 0 false with
          | (true, cur) => .ok (csp, true, dictSet asg i (PyDom.list cur))
          | (false, _) => .ok (csp, false, asg)
  | some (PyDom.str s) =>
    if s.length = 0 then .ok (csp, false, asg)
    else
      match dlookup asg j with
      | none => .error .keyError
      | some dj =>
        match dlookupC csp i j with
        | none => .error .keyError
        | some cIJ =>
          match reviseStrLoop cIJ dj.iter s.toList s.toList false with
          | .error e => .error e
          | .ok revised => .ok (csp, revised, asg)

/-- `CSP.inference` (AC-3).  Pops arcs FIFO; on a revision it fails if
the revised slot became empty, otherwise re-enqueues `(k, x_i)` for
every neighboring arc of `x_i` with `k != x_j`.  Returns the consistency
flag and the pruned assignment, threading the CSP object.  The fuel
bounds the number of loop iterations. -/
def inference : Nat → CSP → Asg → List (String × String) →
    Except PyErr (CSP × Bool × Asg)
  | fuel, csp, asg, q =>
    match q, fuel with
    | [], _ => .ok (csp, true, asg)
    | _ :: _, 0 => .error .outOfFuel
    | (xi, xj) :: rest, fuel + 1 =>
      match revise csp asg xi xj with
      | .error e => .error e
      | .ok (csp1, revised, asg1) =>
        if revised then
          match dlookup asg1 xi with
          | none => .error .keyError
          | some dxi =>
            if dxi.len = 0 then .ok (csp1, false, asg1)
            else
              match get_all_neighboring_arcs csp1 xi with
              | .error e => .error e
              | .ok narcs =>
                inference fuel csp1 asg1
                  (rest ++ (narcs.filter (fun p => decide (p.1 ≠ xj))).map
                    (fun p => (p.1, xi)))
        else inference fuel csp1 asg1 rest

/-- The key of Python's `min` in `CSP.select_unassigned_variable`:
`float("inf")` (modelled by `none`) for slots of length below two, the
length otherwise. -/
def sel_key (d : PyDom) : Option Nat :=
  if d.len < 2 then none else some d.len

/-- Strict comparison of `min` keys, with `none` as infinity. -/
def opt_lt : Option Nat → Option Nat → Bool
  | none, _ => false
  | some _, none => true
  | some a, some b => decide (a < b)

/-- `CSP.select_unassigned_variable`: Python `min` over the dict keys,
returning the first key attaining the minimal key value (ValueError on
an empty dict). -/
def select_unassigned_variable (asg : Asg) : Except PyErr String :=
  match asg with
  | [] => .error .valueError
  | p :: rest =>
    .ok (rest.foldl
      (fun best q => if opt_lt (sel_key q.2) (sel_key best.2) then q else best)
      p).1

/-- Lines 129 and 130 of `CSP.backtrack`: `tmp = copy.deepcopy(assignment)`
followed by `tmp[var] = val`.  Deep copying is the identity on pure
values; the assignment stores the raw value `val` — a string, not the
singleton list `[val]`. -/
def branch_assignment (asg : Asg) (var val : String) : Asg :=
  dictSet asg var (PyDom.str val)

/-- The `for val in assignment[var]` loop of `CSP.backtrack`, abstracted
over the recursive call (`recur`) and the inference runner so that the
loop itself is structurally recursive on the value list.  A result is
propagated up only when it is truthy (a non-empty dict). -/
def backtrack_val_loop (recur : CSP → Asg → Except PyErr (CSP × Option Asg))
    (runInference : CSP → Asg → Except PyErr (CSP × Bool × Asg))
    (asg : Asg) (var : String) :
    CSP → List String → Except PyErr (CSP × Option Asg)
  | csp, [] => .ok ({ csp with failed := csp.failed + 1 }, none)
  | csp, val :: rest =>
    let tmp := branch_assignment asg var val
    match runInference csp tmp with
    | .error e => .error e
    | .ok (csp1, inferences, tmp1) =>
      if inferences then
        match recur csp1 tmp1 with
        | .error e => .error e
        | .ok (csp2, some result) =>
          if result.isEmpty then
            backtrack_val_loop recur runInference asg var csp2 rest
          else .ok (csp2, some result)
        | .ok (csp2, none) =>
          backtrack_val_loop recur runInference asg var csp2 rest
      else backtrack_val_loop recur runInference asg var csp1 rest

/-- `CSP.backtrack`.  Returns the assignment once every slot has length
one; otherwise picks the variable with the fewest remaining values and
tries its values in order, deep-copying the assignment, storing the raw
value, running AC-3 over all arcs and recursing.  `None` (here `none`)
signals failure; the counters on `self` are threaded through. -/
def backtrack : Nat → CSP → Asg → Except PyErr (CSP × Option Asg)
  | 0, _, _ => .error .outOfFuel
  | fuel + 1, csp, asg =>
    let done := asg.all (fun p => p.2.len == 1)
    if done then .ok (csp, some asg)
    else
      let csp1 := { csp with backtracks := csp.backtracks + 1 }
      match select_unassigned_variable asg with
      | .error e => .error e
      | .ok var =>
        match dlookup asg var with
        | none => .error .keyError
        | some dvar =>
          backtrack_val_loop (fun c a => backtrack fuel c a)
            (fun c a => inference fuel c a (get_all_arcs c))
            asg var csp1 dvar.iter

/-- `CSP.backtracking_search`: deep-copies `self.domains` into the
initial assignment, runs AC-3 over all arcs discarding its boolean
result (but keeping the pruning), then calls `backtrack`. -/
def backtracking_search (fuel : Nat) (csp : CSP) :
    Except PyErr (CSP × Option Asg) :=
  let assignment : Asg := csp.domains.map (fun p => (p.1, PyDom.list p.2))
  match inference fuel csp assignment (get_all_arcs csp) with
  | .error e => .error e
  | .ok (csp1, _, asg1) => backtrack fuel csp1 asg1

/-- Extract the CSP from a successful build (builders below are proved to
succeed, so the fallback is never reached). -/
def getOk : Except PyErr CSP → CSP
  | .ok c => c
  | .error _ => emptyCSP

/-- A complete valid solution in the sense of the spec: a mapping that
covers every variable and, for every registered constraint `(i, j)`,
assigns a pair of values belonging to that constraint's legal-pair
list. -/
def is_valid_solution (csp : CSP) (sol : List (String × String)) : Bool :=
  csp.vars.all (fun v => (dlookup sol v).isSome) &&
  csp.constraints.all (fun e =>
    e.2.all (fun q =>
      match dlookup sol e.1, dlookup sol q.1 with
      | some vi, some vj => decide ((vi, vj) ∈ q.2)
      | _, _ => false))

/-- One arc is arc-consistent in the sense of the spec glossary: every
value in `i`'s slot has, by the very support count `revise` computes, at
least one compatible value in `j`'s slot. -/
def arc_supported (csp : CSP) (asg : Asg) (p : String × String) : Bool :=
  match dlookup asg p.1, dlookup asg p.2, dlookupC csp p.1 p.2 with
  | some di, some dj, some cIJ =>
    di.iter.all (fun x =>
      !((cIJ.filter (fun q =>
        decide (q ∈ get_all_possible_pairs [x] dj.iter))).length < 1))
  | _, _, _ => false

/-- A two-variable graph with a valid solution: domains of two colors and
a not-equal constraint registered in both directions. -/
def solvable_pair_build : Except PyErr CSP := do
  let c0 := add_variable emptyCSP "a" ["red", "green"]
  let c1 := add_variable c0 "b" ["red", "green"]
  let c2 ← add_constraint_one_way c1 "a" "b" (fun x y => x != y)
  add_constraint_one_way c2 "b" "a" (fun x y => x != y)

/-- The two-variable solvable graph. -/
def solvable_pair : CSP := getOk solvable_pair_build

/-- An unsolvable graph: a triangle of all-different variables over only
two colors. -/
def triangle_build : Except PyErr CSP := do
  let c0 := add_variable emptyCSP "a" ["red", "green"]
  let c1 := add_variable c0 "b" ["red", "green"]
  let c2 := add_variable c1 "c" ["red", "green"]
  add_all_different_constraint c2 ["a", "b", "c"]

/-- The unsolvable triangle graph. -/
def triangle_csp : CSP := getOk triangle_build

/-- All eight candidate total value assignments of the triangle graph. -/
def triangle_candidates : List (List (String × String)) :=
  ["red", "green"].flatMap (fun va =>
    ["red", "green"].flatMap (fun vb =>
      ["red", "green"].map (fun vc => [("a", va), ("b", vb), ("c", vc)])))

/-- A graph whose single one-way constraint has an empty legal-pair list
(a predicate rejecting every pair), with a two-value slot at `a`: the
smallest input on which the mutate-while-iterate slip of `revise` is
visible. -/
def empty_constraint_build : Except PyErr CSP := do
  let c0 := add_variable emptyCSP "a" ["x", "y"]
  let c1 := add_variable c0 "b" ["z"]
  add_constraint_one_way c1 "a" "b" (fun _ _ => false)

/-- The empty-constraint graph. -/
def empty_constraint_csp : CSP := getOk empty_constraint_build

/-- The initial assignment of the empty-constraint graph. -/
def empty_constraint_asg : Asg :=
  [("a", PyDom.list ["x", "y"]), ("b", PyDom.list ["z"])]

/-- A graph with a single one-way constraint, used to compare incoming
and outgoing arcs of `get_all_neighboring_arcs`. -/
def one_way_build : Except PyErr CSP := do
  let c0 := add_variable emptyCSP "a" ["1"]
  let c1 := add_variable c0 "b" ["1"]
  add_constraint_one_way c1 "a" "b" (fun _ _ => true)

/-- The one-way-constraint graph. -/
def one_way_csp : CSP := getOk one_way_build

/-- A graph with a single declared variable, used to call
`add_constraint_one_way` with an undeclared variable. -/
def single_var_csp : CSP := add_variable emptyCSP "a" ["1"]

/-- The Australian states of `create_map_coloring_csp`. -/
def australia_states : List String := ["WA", "NT", "Q", "NSW", "V", "SA", "T"]

/-- The adjacency dict of `create_map_coloring_csp`, in literal order. -/
def australia_edges : List (String × List String) :=
  [("SA", ["WA", "NT", "Q", "NSW", "V"]), ("NT", ["WA", "Q"]),
   ("NSW", ["Q", "V"])]

/-- The colors of `create_map_coloring_csp`. -/
def australia_colors : List String := ["red", "green", "blue"]

/-- `create_map_coloring_csp`: seven variables with three colors each and
a not-equal constraint in both directions for every edge.  The final
materialization loop of the source turns each stored lazy filter object
into a list; constraint lists are stored materialized here, so that loop
is the identity in this model. -/
def create_map_coloring_csp : Except PyErr CSP := do
  let csp0 := australia_states.foldl
    (fun c s => add_variable c s australia_colors) emptyCSP
  australia_edges.foldlM
    (fun c p =>
      p.2.foldlM
        (fun c2 other => do
          let c3 ← add_constraint_one_way c2 p.1 other (fun x y => x != y)
          add_constraint_one_way c3 other p.1 (fun x y => x != y))
        c)
    csp0

/-- The map-coloring graph. -/
def map_coloring_csp : CSP := getOk create_map_coloring_csp

/-- A graph with an isolated variable holding an empty slot next to a
pair of compatible constrained variables: every `revise` over the
registered arcs removes nothing, yet an empty domain is present. -/
def empty_slot_csp : CSP :=
  getOk (do
    let c0 := add_variable emptyCSP "e" []
    let c1 := add_variable c0 "a" ["1"]
    let c2 := add_variable c1 "b" ["1"]
    add_constraint_one_way c2 "a" "b" (fun _ _ => true))

/-- The assignment of the empty-slot graph: `e` is already empty. -/
def empty_slot_asg : Asg :=
  [("e", PyDom.list []), ("a", PyDom.list ["1"]), ("b", PyDom.list ["1"])]

/-- C1.  The two-variable graph has a valid solution (`a = red`,
`b = green`), yet `backtracking_search` does not return a complete
satisfying assignment: it raises `AttributeError`, because `backtrack`
stores the raw string `"red"` in the copied assignment and `revise` then
iterates its characters and calls `.remove` on a string. -/
theorem c1_solvable_graph_crashes :
    solvable_pair_build = .ok solvable_pair ∧
    is_valid_solution solvable_pair [("a", "red"), ("b", "green")] = true ∧
    backtracking_search 20 solvable_pair = .error .attributeError :=
  ⟨rfl, rfl, rfl⟩

/-- C2.  The triangle graph (three all-different variables, two colors)
has no valid solution — all eight total candidate assignments over its
color set fail — yet `backtracking_search` does not return a failure
signal: it raises `AttributeError` on the first branch step. -/
theorem c2_unsolvable_graph_crashes :
    triangle_build = .ok triangle_csp ∧
    triangle_candidates.all (fun s => !(is_valid_solution triangle_csp s)) = true ∧
    backtracking_search 30 triangle_csp = .error .attributeError :=
  ⟨rfl, rfl, rfl⟩

/-- C3.  The branch step of `backtrack` (`tmp = copy.deepcopy(assignment)`
followed by `tmp[var] = val`) stores the raw value `"red"` — a string of
length 3 — in the chosen variable's slot, not the singleton list
`["red"]` that the claim (and the function's own docstring) describes. -/
theorem c3_branch_stores_raw_value :
    branch_assignment
      [("a", PyDom.list ["red", "green"]), ("b", PyDom.list ["red", "green"])]
      "a" "red" =
      [("a", PyDom.str "red"), ("b", PyDom.list ["red", "green"])] ∧
    (PyDom.str "red").len = 3 ∧
    PyDom.str "red" ≠ PyDom.list ["red"] :=
  ⟨rfl, rfl, by decide⟩

/-- C4.  On the map-coloring graph of `create_map_coloring_csp`,
`backtracking_search` does not return a coloring: fixing `WA` to the
string `"red"` makes the next `revise` iterate the characters `r`, `e`,
`d` and call `.remove` on the string, raising `AttributeError`. -/
theorem c4_map_coloring_crashes :
    create_map_coloring_csp = .ok map_coloring_csp ∧
    backtracking_search 60 map_coloring_csp = .error .attributeError :=
  ⟨rfl, rfl⟩

/-- C5.  On the arc `(a, b)` with legal-pair list `[]`, both values of
`a`'s slot `["x", "y"]` lack support, so the claim says `revise` removes
both; but removing `"x"` while iterating shifts the list and the
iterator skips `"y"`, which survives the call. -/
theorem c5_revise_keeps_unsupported_value :
    empty_constraint_build = .ok empty_constraint_csp ∧
    dlookupC empty_constraint_csp "a" "b" = some [] ∧
    revise empty_constraint_csp empty_constraint_asg "a" "b" =
      .ok (empty_constraint_csp, true,
        [("a", PyDom.list ["y"]), ("b", PyDom.list ["z"])]) :=
  ⟨rfl, rfl, rfl⟩

/-- C7, counterexample.  A run of `inference` over all arcs returns
`True` leaving `a ↦ ["y"]` (the skipped unsupported value), and an
immediately following second run over all arcs removes `"y"` and
returns `False`: a `True`-returning run is not a fixed point. -/
theorem c7_inference_true_not_idempotent :
    inference 10 empty_constraint_csp empty_constraint_asg
        (get_all_arcs empty_constraint_csp) =
      .ok (empty_constraint_csp, true,
        [("a", PyDom.list ["y"]), ("b", PyDom.list ["z"])]) ∧
    inference 10 empty_constraint_csp
        [("a", PyDom.list ["y"]), ("b", PyDom.list ["z"])]
        (get_all_arcs empty_constraint_csp) =
      .ok (empty_constraint_csp, false,
        [("a", PyDom.list []), ("b", PyDom.list ["z"])]) ∧
    ([("a", PyDom.list []), ("b", PyDom.list ["z"])] : Asg) ≠
      [("a", PyDom.list ["y"]), ("b", PyDom.list ["z"])] :=
  ⟨rfl, rfl, by decide⟩

/-- C8, counterexample.  In the one-way graph only the constraint
`(a, b)` is registered; the claim says `get_all_neighboring_arcs(a)`
returns the incoming arcs of `a` (here none) — but the code returns
`[("b", "a")]` although `(b, a)` is not registered, and returns `[]`
for `b` although `(a, b)` is registered. -/
theorem c8_neighboring_arcs_not_incoming :
    one_way_build = .ok one_way_csp ∧
    dlookupC one_way_csp "a" "b" = some [("1", "1")] ∧
    dlookupC one_way_csp "b" "a" = none ∧
    get_all_neighboring_arcs one_way_csp "a" = .ok [("b", "a")] ∧
    get_all_neighboring_arcs one_way_csp "b" = .ok [] :=
  ⟨rfl, rfl, rfl, rfl, rfl⟩

theorem dlookup_mem {α : Type} {l : List (String × α)} {k : String} {v : α}
    (h : dlookup l k = some v) : (k, v) ∈ l := by
  induction l with
  | nil => simp [dlookup] at h
  | cons p rest ih =>
    obtain ⟨k2, v2⟩ := p
    by_cases hk : k2 = k
    · subst hk
      simp [dlookup] at h
      subst h
      exact List.mem_cons_self _ _
    · simp [dlookup, hk] at h
      exact List.mem_cons_of_mem _ (ih h)

theorem dlookup_isSome_iff {α : Type} {l : List (String × α)} {k : String} :
    (dlookup l k).isSome ↔ ∃ p ∈ l, p.1 = k := by
  induction l with
  | nil => simp [dlookup]
  | cons p rest ih =>
    obtain ⟨k2, v2⟩ := p
    by_cases hk : k2 = k
    · subst hk
      simp [dlookup]
    · rw [dlookup]
      rw [if_neg hk]
      rw [ih]
      constructor
      · rintro ⟨q, hq, hq1⟩
        exact ⟨q, List.mem_cons_of_mem _ hq, hq1⟩
      · rintro ⟨q, hq, hq1⟩
        rcases List.mem_cons.mp hq with h1 | h1
        · rw [h1] at hq1
          exact absurd hq1 hk
        · exact ⟨q, h1, hq1⟩

theorem pyRemove_length_of_mem {l : List String} {x : String} (h : x ∈ l) :
    (pyRemove l x).length + 1 = l.length := by
  induction l with
  | nil => simp at h
  | cons a rest ih =>
    by_cases ha : a = x
    · simp [pyRemove, ha]
    · have hx : x ∈ rest := by
        rcases List.mem_cons.mp h with h1 | h1
        · exact absurd h1.symm ha
        · exact h1
      have := ih hx
      simp only [pyRemove, if_neg ha, List.length_cons]
      omega


theorem reviseListLoop_len_le (cIJ : List (String × String)) (sameIJ : Bool)
    (dj0 : List String) :
    ∀ fuel cur idx rev,
      ((reviseListLoop cIJ sameIJ dj0 fuel cur idx rev).2).length ≤ cur.length := by
  intro fuel
  induction fuel with
  | zero =>
    intro cur idx rev
    simp [reviseListLoop]
  | succ f ih =>
    intro cur idx rev
    rw [reviseListLoop]
    by_cases h : idx < cur.length
    · rw [dif_pos h]
      dsimp only
      have hm : cur.get ⟨idx, h⟩ ∈ cur := List.get_mem cur idx h
      have h2 : (pyRemove cur (cur.get ⟨idx, h⟩)).length ≤ cur.length := by
        have := pyRemove_length_of_mem hm
        omega
      by_cases hc : (cIJ.filter (fun p => decide (p ∈ get_all_possible_pairs
          [cur.get ⟨idx, h⟩] (if sameIJ then cur else dj0)))).length < 1
      · rw [if_pos hc]
        by_cases hmem : decide (cur.get ⟨idx, h⟩ ∈ cur) = true
        · rw [if_pos hmem]
          exact le_trans (ih _ _ _) h2
        · rw [if_neg hmem]
          exact ih _ _ _
      · rw [if_neg hc]
        exact ih _ _ _
    · rw [dif_neg h]

theorem reviseListLoop_true_lt (cIJ : List (String × String)) (sameIJ : Bool)
    (dj0 : List String) :
    ∀ fuel cur idx cur2,
      reviseListLoop cIJ sameIJ dj0 fuel cur idx false = (true, cur2) →
      cur2.length < cur.length := by
  intro fuel
  induction fuel with
  | zero =>
    intro cur idx cur2 h
    simp [reviseListLoop] at h
  | succ f ih =>
    intro cur idx cur2 heq
    rw [reviseListLoop] at heq
    by_cases h : idx < cur.length
    · rw [dif_pos h] at heq
      try dsimp only at heq
      have hm : cur.get ⟨idx, h⟩ ∈ cur := List.get_mem cur idx h
      by_cases hc : (cIJ.filter (fun p => decide (p ∈ get_all_possible_pairs
          [cur.get ⟨idx, h⟩] (if sameIJ then cur else dj0)))).length < 1
      · rw [if_pos hc] at heq
        rw [if_pos (decide_eq_true hm)] at heq
        have hle := reviseListLoop_len_le cIJ sameIJ dj0 f
          (pyRemove cur (cur.get ⟨idx, h⟩)) (idx + 1) true
        rw [heq] at hle
        have hl := pyRemove_length_of_mem hm
        try dsimp only at hle
        omega
      · rw [if_neg hc] at heq
        exact ih _ _ _ heq
    · rw [dif_neg h] at heq
      simp at heq

theorem reviseListLoop_false_eq (cIJ : List (String × String)) (sameIJ : Bool)
    (dj0 : List String) :
    ∀ fuel cur idx rev cur2,
      reviseListLoop cIJ sameIJ dj0 fuel cur idx rev = (false, cur2) →
      rev = false ∧ cur2 = cur := by
  intro fuel
  induction fuel with
  | zero =>
    intro cur idx rev cur2 h
    simp only [reviseListLoop, Prod.mk.injEq] at h
    exact ⟨h.1, h.2.symm⟩
  | succ f ih =>
    intro cur idx rev cur2 heq
    rw [reviseListLoop] at heq
    by_cases h : idx < cur.length
    · rw [dif_pos h] at heq
      try dsimp only at heq
      by_cases hc : (cIJ.filter (fun p => decide (p ∈ get_all_possible_pairs
          [cur.get ⟨idx, h⟩] (if sameIJ then cur else dj0)))).length < 1
      · rw [if_pos hc] at heq
        by_cases hmem : decide (cur.get ⟨idx, h⟩ ∈ cur) = true
        · rw [if_pos hmem] at heq
          exact absurd (ih _ _ _ _ heq).1 (by simp)
        · rw [if_neg hmem] at heq
          exact absurd (ih _ _ _ _ heq).1 (by simp)
      · rw [if_neg hc] at heq
        exact ih _ _ _ _ heq
    · rw [dif_neg h] at heq
      simp only [Prod.mk.injEq] at heq
      exact ⟨heq.1, heq.2.symm⟩

theorem reviseListLoop_noop (cIJ : List (String × String)) (sameIJ : Bool)
    (dj0 : List String) (cur : List String)
    (hsupp : ∀ x ∈ cur, ¬((cIJ.filter (fun p => decide (p ∈
      get_all_possible_pairs [x] (if sameIJ then cur else dj0)))).length < 1)) :
    ∀ fuel idx rev, reviseListLoop cIJ sameIJ dj0 fuel cur idx rev = (rev, cur) := by
  intro fuel
  induction fuel with
  | zero =>
    intro idx rev
    rfl
  | succ f ih =>
    intro idx rev
    rw [reviseListLoop]
    by_cases h : idx < cur.length
    · rw [dif_pos h]
      dsimp only
      rw [if_neg (hsupp _ (List.get_mem cur idx h))]
      exact ih _ _
    · rw [dif_neg h]

theorem reviseStrLoop_not_true (cIJ : List (String × String))
    (djIter : List String) (sFull : List Char) :
    ∀ rest, (∀ c ∈ rest, c ∈ sFull) → ∀ b,
      reviseStrLoop cIJ djIter sFull rest false = .ok b → b = false := by
  intro rest
  induction rest with
  | nil =>
    intro _ b h
    simp only [reviseStrLoop, Except.ok.injEq] at h
    exact h.symm
  | cons c rest ih =>
    intro hsub b heq
    rw [reviseStrLoop] at heq
    by_cases hc : (cIJ.filter (fun p => decide (p ∈ get_all_possible_pairs
        [String.singleton c] djIter))).length < 1
    · rw [if_pos hc] at heq
      rw [if_pos (decide_eq_true (hsub c (List.mem_cons_self _ _)))] at heq
      simp at heq
    · rw [if_neg hc] at heq
      exact ih (fun d hd => hsub d (List.mem_cons_of_mem _ hd)) b heq

theorem reviseStrLoop_noop (cIJ : List (String × String))
    (djIter : List String) (sFull : List Char) :
    ∀ rest, (∀ c ∈ rest, ¬((cIJ.filter (fun p => decide (p ∈
        get_all_possible_pairs [String.singleton c] djIter))).length < 1)) →
      ∀ rev, reviseStrLoop cIJ djIter sFull rest rev = .ok rev := by
  intro rest
  induction rest with
  | nil =>
    intro _ rev
    rfl
  | cons c rest ih =>
    intro hsupp rev
    rw [reviseStrLoop]
    rw [if_neg (hsupp c (List.mem_cons_self _ _))]
    exact ih (fun d hd => hsupp d (List.mem_cons_of_mem _ hd)) rev

theorem totalLen_cons (k : String) (v : PyDom) (rest : Asg) :
    totalLen ((k, v) :: rest) = v.len + totalLen rest := by
  simp [totalLen]

theorem totalLen_dictSet_lt {asg : Asg} {i : String} {d d2 : PyDom}
    (hd : dlookup asg i = some d) (hlt : d2.len < d.len) :
    totalLen (dictSet asg i d2) < totalLen asg := by
  induction asg with
  | nil => simp [dlookup] at hd
  | cons p rest ih =>
    obtain ⟨k, v⟩ := p
    by_cases hk : k = i
    · rw [dlookup, if_pos hk] at hd
      injection hd with hd
      rw [dictSet, if_pos hk, totalLen_cons, totalLen_cons, hd]
      omega
    · rw [dlookup, if_neg hk] at hd
      rw [dictSet, if_neg hk, totalLen_cons, totalLen_cons]
      have := ih hd
      omega

theorem revise_csp_eq {csp : CSP} {asg : Asg} {i j : String} {c1 : CSP}
    {fl : Bool} {a1 : Asg} (h : revise csp asg i j = .ok (c1, fl, a1)) :
    c1 = csp := by
  unfold revise at h
  repeat' split at h
  all_goals
    first
      | exact Except.noConfusion h
      | (simp only [Except.ok.injEq, Prod.mk.injEq] at h; exact h.1.symm)

theorem revise_false_eq {csp : CSP} {asg : Asg} {i j : String} {c1 : CSP}
    {a1 : Asg} (h : revise csp asg i j = .ok (c1, false, a1)) : a1 = asg := by
  unfold revise at h
  repeat' split at h
  all_goals
    first
      | exact Except.noConfusion h
      | (simp only [Except.ok.injEq, Prod.mk.injEq] at h;
         first
           | exact h.2.2.symm
           | exact absurd h.2.1 (by simp))

theorem revise_true_lt {csp : CSP} {asg : Asg} {i j : String} {c1 : CSP}
    {a1 : Asg} (h : revise csp asg i j = .ok (c1, true, a1)) :
    totalLen a1 < totalLen asg := by
  unfold revise at h
  repeat' split at h
  · exact Except.noConfusion h
  · simp only [Except.ok.injEq, Prod.mk.injEq] at h
    exact absurd h.2.1 (by simp)
  · exact Except.noConfusion h
  · exact Except.noConfusion h
  · rename_i xa di hdi hlen xb dj hdj xc cij hcij xd cur hloop
    simp only [Except.ok.injEq, Prod.mk.injEq] at h
    obtain ⟨_, _, ha⟩ := h
    rw [← ha]
    have hlt := reviseListLoop_true_lt cij (decide (i = j)) dj.iter
      di.length di 0 cur hloop
    exact totalLen_dictSet_lt hdi (by simpa [PyDom.len] using hlt)
  · simp only [Except.ok.injEq, Prod.mk.injEq] at h
    exact absurd h.2.1 (by simp)
  · simp only [Except.ok.injEq, Prod.mk.injEq] at h
    exact absurd h.2.1 (by simp)
  · exact Except.noConfusion h
  · exact Except.noConfusion h
  · exact Except.noConfusion h
  · rename_i xa s hdi hlen xb dj hdj xc cij hcij xd revised hloop
    simp only [Except.ok.injEq, Prod.mk.injEq] at h
    have hfalse := reviseStrLoop_not_true cij dj.iter s.toList
      s.toList (fun c hc => hc) revised hloop
    rw [hfalse] at h
    exact absurd h.2.1 (by simp)

theorem revise_noop_of_supported {csp : CSP} {asg : Asg} {i j : String}
    (hs : arc_supported csp asg (i, j) = true) :
    revise csp asg i j = .ok (csp, false, asg) := by
  unfold arc_supported at hs
  cases hdi : dlookup asg i with
  | none => rw [hdi] at hs; simp at hs
  | some d =>
    rw [hdi] at hs
    cases hdj : dlookup asg j with
    | none => rw [hdj] at hs; simp at hs
    | some dj =>
      rw [hdj] at hs
      cases hcij : dlookupC csp i j with
      | none => rw [hcij] at hs; simp at hs
      | some cIJ =>
        rw [hcij] at hs
        try dsimp only at hs
        rw [List.all_eq_true] at hs
        have hsupp : ∀ x ∈ d.iter, ¬((cIJ.filter (fun p => decide (p ∈
            get_all_possible_pairs [x] dj.iter))).length < 1) := by
          intro x hx
          have := hs x hx
          simpa using this
        cases d with
        | list di =>
          unfold revise
          rw [hdi]
          dsimp only
          by_cases hlen : di.length = 0
          · rw [if_pos hlen]
          · rw [if_neg hlen, hdj, hcij]
            dsimp only
            have hiter : (if decide (i = j) = true then di else dj.iter) = dj.iter := by
              by_cases hij : i = j
              · subst hij
                rw [hdi] at hdj
                injection hdj with hdj
                rw [if_pos (by simp), ← hdj]
                rfl
              · rw [if_neg (by simpa using hij)]
            have hnoop := reviseListLoop_noop cIJ (decide (i = j)) dj.iter di
              (by
                intro x hx
                rw [hiter]
                exact hsupp x hx)
              di.length 0 false
            rw [hnoop]
        | str s =>
          unfold revise
          rw [hdi]
          dsimp only
          by_cases hlen : s.length = 0
          · rw [if_pos hlen]
          · rw [if_neg hlen, hdj, hcij]
            dsimp only
            have hnoop := reviseStrLoop_noop cIJ dj.iter s.toList s.toList
              (by
                intro c hc
                exact hsupp (String.singleton c)
                  (by
                    simp only [PyDom.iter]
                    exact List.mem_map_of_mem _ hc))
              false
            rw [hnoop]

theorem inference_of_revise_noop {csp : CSP} {asg : Asg} :
    ∀ (q : List (String × String)) (fuel : Nat),
      (∀ p ∈ q, revise csp asg p.1 p.2 = .ok (csp, false, asg)) →
      q.length ≤ fuel →
      inference fuel csp asg q = .ok (csp, true, asg) := by
  intro q
  induction q with
  | nil =>
    intro fuel _ _
    rw [inference]
  | cons p rest ih =>
    intro fuel hno hf
    obtain ⟨xi, xj⟩ := p
    cases fuel with
    | zero => simp at hf
    | succ f =>
      rw [inference]
      try dsimp only
      rw [hno (xi, xj) (List.mem_cons_self _ _)]
      try dsimp only
      exact ih f (fun p hp => hno p (List.mem_cons_of_mem _ hp))
        (by simp only [List.length_cons] at hf; omega)

theorem inference_csp_eq :
    ∀ (fuel : Nat) (csp : CSP) (asg : Asg) (q : List (String × String))
      (c1 : CSP) (b : Bool) (a1 : Asg),
      inference fuel csp asg q = .ok (c1, b, a1) → c1 = csp := by
  intro fuel
  induction fuel with
  | zero =>
    intro csp asg q c1 b a1 h
    cases q with
    | nil =>
      rw [inference] at h
      simp only [Except.ok.injEq, Prod.mk.injEq] at h
      exact h.1.symm
    | cons p rest =>
      obtain ⟨xi, xj⟩ := p
      rw [inference] at h
      exact Except.noConfusion h
  | succ f ih =>
    intro csp asg q c1 b a1 h
    cases q with
    | nil =>
      rw [inference] at h
      simp only [Except.ok.injEq, Prod.mk.injEq] at h
      exact h.1.symm
    | cons p rest =>
      obtain ⟨xi, xj⟩ := p
      rw [inference] at h
      try dsimp only at h
      cases hrev : revise csp asg xi xj with
      | error e =>
        rw [hrev] at h
        exact Except.noConfusion h
      | ok t =>
        obtain ⟨c2, revised, a2⟩ := t
        rw [hrev] at h
        try dsimp only at h
        have hc2 : c2 = csp := revise_csp_eq hrev
        split at h
        · split at h
          · exact Except.noConfusion h
          · split at h
            · simp only [Except.ok.injEq, Prod.mk.injEq] at h
              rw [← h.1]
              exact hc2
            · split at h
              · exact Except.noConfusion h
              · rw [← hc2]
                exact ih c2 a2 _ c1 b a1 h
        · rw [← hc2]
          exact ih c2 a2 rest c1 b a1 h

theorem inference_false_spec :
    ∀ (fuel : Nat) (csp : CSP) (asg : Asg) (q : List (String × String))
      (c1 : CSP) (aF : Asg),
      inference fuel csp asg q = .ok (c1, false, aF) →
      totalLen aF < totalLen asg ∧
        ∃ w dw, dlookup aF w = some dw ∧ dw.len = 0 := by
  intro fuel
  induction fuel with
  | zero =>
    intro csp asg q c1 aF h
    cases q with
    | nil =>
      rw [inference] at h
      simp at h
    | cons p rest =>
      obtain ⟨xi, xj⟩ := p
      rw [inference] at h
      exact Except.noConfusion h
  | succ f ih =>
    intro csp asg q c1 aF h
    cases q with
    | nil =>
      rw [inference] at h
      simp at h
    | cons p rest =>
      obtain ⟨xi, xj⟩ := p
      rw [inference] at h
      try dsimp only at h
      cases hrev : revise csp asg xi xj with
      | error e =>
        rw [hrev] at h
        exact Except.noConfusion h
      | ok t =>
        obtain ⟨c2, revised, a2⟩ := t
        rw [hrev] at h
        try dsimp only at h
        split at h
        · rename_i hrevised
          rw [hrevised] at hrev
          have hlt : totalLen a2 < totalLen asg := revise_true_lt hrev
          split at h
          · exact Except.noConfusion h
          · rename_i dxi hdx
            split at h
            · rename_i hl
              simp only [Except.ok.injEq, Prod.mk.injEq] at h
              rw [← h.2.2]
              exact ⟨hlt, xi, dxi, hdx, hl⟩
            · split at h
              · exact Except.noConfusion h
              · obtain ⟨h1, h2⟩ := ih c2 a2 _ c1 aF h
                exact ⟨lt_trans h1 hlt, h2⟩
        · rename_i hrevised
          rw [Bool.not_eq_true] at hrevised
          rw [hrevised] at hrev
          have ha2 : a2 = asg := revise_false_eq hrev
          rw [ha2] at h
          exact ih c2 asg rest c1 aF h

/-- C6.  `inference` mutates only the assignment it is passed: whenever it
returns, the threaded CSP object — variables, domain templates, stored
constraint pair lists and counters alike — is the one it was given, and
consequently a later call on the graph left by a finished call behaves
exactly like a call on the original graph, so repeated runs on the same
or different assignment copies cannot contaminate one another. -/
theorem c6_inference_preserves_graph (fuel : Nat) (csp : CSP) (asg : Asg)
    (q : List (String × String)) (c1 : CSP) (b : Bool) (a1 : Asg)
    (h : inference fuel csp asg q = .ok (c1, b, a1)) :
    c1 = csp ∧
    ∀ (fuel2 : Nat) (asg2 : Asg) (q2 : List (String × String)),
      inference fuel2 c1 asg2 q2 = inference fuel2 csp asg2 q2 := by
  have hc := inference_csp_eq fuel csp asg q c1 b a1 h
  exact ⟨hc, fun fuel2 asg2 q2 => by rw [hc]⟩

/-- Witness for C6 at a concrete run. -/
theorem c6_inference_preserves_graph_witness :
    one_way_csp = one_way_csp ∧
    inference 3 one_way_csp [("b", PyDom.list [])] [] =
      inference 3 one_way_csp [("b", PyDom.list [])] [] := by
  have h := c6_inference_preserves_graph 5 one_way_csp
    [("a", PyDom.list ["1"]), ("b", PyDom.list ["1"])]
    (get_all_arcs one_way_csp) one_way_csp true
    [("a", PyDom.list ["1"]), ("b", PyDom.list ["1"])] (by decide)
  exact ⟨h.1, h.2 3 [("b", PyDom.list [])] []⟩

/-- C7, amended.  On an assignment that is genuinely arc-consistent (by
the very support count `revise` computes, every value of every arc's
left slot has a compatible value in the right slot), a run of
`inference` over all arcs removes zero values, leaves the assignment
unchanged and returns `True` — hence an immediately following second run
(the same call on the same state) also removes zero values. -/
theorem c7_inference_idempotent_on_arc_consistent (csp : CSP) (asg : Asg)
    (fuel : Nat)
    (h1 : (get_all_arcs csp).all (arc_supported csp asg) = true)
    (h2 : (get_all_arcs csp).length ≤ fuel) :
    inference fuel csp asg (get_all_arcs csp) = .ok (csp, true, asg) := by
  apply inference_of_revise_noop _ fuel _ h2
  intro p hp
  obtain ⟨i, j⟩ := p
  exact revise_noop_of_supported (List.all_eq_true.mp h1 _ hp)

/-- Witness for the amended C7 at a concrete arc-consistent state. -/
theorem c7_inference_idempotent_on_arc_consistent_witness :
    inference 5 one_way_csp [("a", PyDom.list ["1"]), ("b", PyDom.list ["1"])]
      (get_all_arcs one_way_csp) =
      .ok (one_way_csp, true, [("a", PyDom.list ["1"]), ("b", PyDom.list ["1"])]) :=
  c7_inference_idempotent_on_arc_consistent one_way_csp
    [("a", PyDom.list ["1"]), ("b", PyDom.list ["1"])] 5 (by decide) (by decide)

/-- C8, amended.  `get_all_neighboring_arcs(var)` returns exactly the
pairs `(j, var)` for the outgoing constraints `(var, j)` registered on
`var` — the keys of `self.constraints[var]` relabelled as arcs into
`var` — which coincides with the incoming arcs only on graphs whose
constraints are registered in both directions. -/
theorem c8_neighboring_arcs_outgoing_spec (csp : CSP) (v : String)
    (arcsL : List (String × String))
    (h : get_all_neighboring_arcs csp v = .ok arcsL) :
    ∀ p : String × String, p ∈ arcsL ↔ p.2 = v ∧ (dlookupC csp v p.1).isSome := by
  unfold get_all_neighboring_arcs at h
  cases hin : dlookup csp.constraints v with
  | none =>
    rw [hin] at h
    exact Except.noConfusion h
  | some inner =>
    rw [hin] at h
    injection h with h
    subst h
    intro p
    obtain ⟨p1, p2⟩ := p
    unfold dlookupC
    rw [hin]
    simp only [List.mem_map]
    constructor
    · rintro ⟨q, hq, hqe⟩
      rw [Prod.mk.injEq] at hqe
      exact ⟨hqe.2.symm, dlookup_isSome_iff.mpr ⟨q, hq, hqe.1⟩⟩
    · rintro ⟨h2, hsome⟩
      obtain ⟨q, hq, hq1⟩ := dlookup_isSome_iff.mp hsome
      exact ⟨q, hq, by rw [Prod.mk.injEq]; exact ⟨hq1, h2.symm⟩⟩

/-- Witness for the amended C8 on the one-way graph. -/
theorem c8_neighboring_arcs_outgoing_spec_witness :
    (("b", "a") ∈ [(("b" : String), ("a" : String))] ↔
      (("b", "a") : String × String).2 = "a" ∧
      (dlookupC one_way_csp "a" (("b", "a") : String × String).1).isSome) :=
  c8_neighboring_arcs_outgoing_spec one_way_csp "a" [("b", "a")]
    (by decide) ("b", "a")

/-- C9.  Calling `add_constraint_one_way` with an undeclared `i` or an
undeclared `j` fails at graph-construction time with a `KeyError`
(raised by `self.constraints[i]`, or by `self.domains[i]`/`self.domains[j]`
when building the cross product) rather than being silently ignored.
The well-formedness hypothesis — every variable mentioned inside the
constraint dict has a domain entry — holds for every graph built through
`add_variable`/`add_constraint_one_way`. -/
theorem c9_undeclared_variable_constraint_errors (csp : CSP) (i j : String)
    (f : String → String → Bool)
    (hwf : csp.constraints.all
      (fun e => e.2.all (fun q => (dlookup csp.domains q.1).isSome)) = true)
    (hund : dlookup csp.constraints i = none ∨ dlookup csp.domains j = none) :
    add_constraint_one_way csp i j f = .error .keyError := by
  unfold add_constraint_one_way
  cases hci : dlookup csp.constraints i with
  | none => rfl
  | some inner =>
    have hdj : dlookup csp.domains j = none := by
      rcases hund with h1 | h1
      · rw [hci] at h1
        exact Option.noConfusion h1
      · exact h1
    try dsimp only
    cases hij : dlookup inner j with
    | some pairs =>
      exfalso
      have h1 := List.all_eq_true.mp hwf _ (dlookup_mem hci)
      have h2 := List.all_eq_true.mp h1 _ (dlookup_mem hij)
      dsimp only at h2
      rw [hdj] at h2
      simp at h2
    | none =>
      try dsimp only
      cases hdi : dlookup csp.domains i with
      | none =>
        rw [hdj]
      | some di =>
        rw [hdj]

/-- Witness for C9: constraining the declared `a` against the undeclared
`b` raises `KeyError`. -/
theorem c9_undeclared_variable_constraint_errors_witness :
    add_constraint_one_way single_var_csp "a" "b" (fun _ _ => true) =
      .error .keyError :=
  c9_undeclared_variable_constraint_errors single_var_csp "a" "b"
    (fun _ _ => true) (by decide) (Or.inr (by decide))

/-- C10.  `inference` does not fail merely because an empty domain is
already present on entry: when no `revise` over the queued arcs removes
a value, it returns `True` (first conjunct, stated with an empty slot
present); and it returns `False` only when this run shrank the
assignment and left some slot empty (second conjunct). -/
theorem c10_inference_tolerates_preexisting_empty_domain (csp : CSP)
    (asg : Asg) (q : List (String × String)) (fuel : Nat) (v : String)
    (hempty : dlookup asg v = some (PyDom.list []))
    (hno : ∀ p ∈ q, revise csp asg p.1 p.2 = .ok (csp, false, asg))
    (hf : q.length ≤ fuel) :
    inference fuel csp asg q = .ok (csp, true, asg) ∧
    (∀ (fuel2 : Nat) (csp2 : CSP) (asg2 : Asg) (q2 : List (String × String))
        (c1 : CSP) (aF : Asg),
      inference fuel2 csp2 asg2 q2 = .ok (c1, false, aF) →
      totalLen aF < totalLen asg2 ∧
        ∃ w dw, dlookup aF w = some dw ∧ dw.len = 0) :=
  ⟨inference_of_revise_noop q fuel hno hf,
   fun fuel2 csp2 asg2 q2 c1 aF h =>
     inference_false_spec fuel2 csp2 asg2 q2 c1 aF h⟩

/-- Witness for C10: the isolated variable `e` has an empty slot, no arc
revision removes anything, and inference over all arcs returns `True`. -/
theorem c10_inference_tolerates_preexisting_empty_domain_witness :
    inference 5 empty_slot_csp empty_slot_asg (get_all_arcs empty_slot_csp) =
      .ok (empty_slot_csp, true, empty_slot_asg) :=
  (c10_inference_tolerates_preexisting_empty_domain empty_slot_csp
    empty_slot_asg (get_all_arcs empty_slot_csp) 5 "e"
    (by decide) (by decide) (by decide)).1
